import Mathlib

/-!
Shallow embedding of `sql/backup.cc` (the BACKUP STAGE implementation):
the per-session stage state machine `run_backup_stage`, its five stage
handlers, the global coordinator state (`backup_running`,
`backup_flush_ticket`), and the alter-copy lock adapter.

External collaborators (MDL lock manager, storage engines, the table
subsystem, and the session's kill/error flags) are modelled by an
`Oracle` record that fixes the outcome of each external call made
during one entry-point invocation.  `backup_start`'s condition-variable
wait loop can block indefinitely when another backup is running and the
session is not killed; entry points therefore return `Option`, with
`none` meaning the call does not return.
-/

/-- The `backup_stages` enum (declared in `sql_class.h`, used throughout
`backup.cc`), in declaration order: the numeric values 0..5 are what the
`(uint)` casts in `run_backup_stage` compare and increment. -/
inductive backup_stages where
  | BACKUP_START
  | BACKUP_FLUSH
  | BACKUP_WAIT_FOR_FLUSH
  | BACKUP_LOCK_COMMIT
  | BACKUP_END
  | BACKUP_FINISHED
deriving DecidableEq, Repr

/-- The `(uint)` value of a `backup_stages` enumerator. -/
def backup_stages.toUint : backup_stages → Nat
  | .BACKUP_START => 0
  | .BACKUP_FLUSH => 1
  | .BACKUP_WAIT_FOR_FLUSH => 2
  | .BACKUP_LOCK_COMMIT => 3
  | .BACKUP_END => 4
  | .BACKUP_FINISHED => 5

/-- The inverse cast `(backup_stages)(uint)` used by the stage loop. -/
def stage_of_uint : Nat → backup_stages
  | 0 => .BACKUP_START
  | 1 => .BACKUP_FLUSH
  | 2 => .BACKUP_WAIT_FOR_FLUSH
  | 3 => .BACKUP_LOCK_COMMIT
  | 4 => .BACKUP_END
  | _ => .BACKUP_FINISHED

/-- The MDL lock types requested by `backup.cc`: the backup ladder
(`FLUSH` to `WAIT_COMMIT`) for the coordinator's flush ticket, and the
DDL-side types (`DDL`, `ALTER_COPY`, `DML`) for the session's
`mdl_backup_ticket` handled by the alter-copy adapter. -/
inductive mdl_type where
  | MDL_BACKUP_FLUSH
  | MDL_BACKUP_WAIT_FLUSH
  | MDL_BACKUP_WAIT_DDL
  | MDL_BACKUP_WAIT_COMMIT
  | MDL_BACKUP_DDL
  | MDL_BACKUP_ALTER_COPY
  | MDL_BACKUP_DML
deriving DecidableEq, Repr

/-- `stage_names` from `backup.cc` (the five valid entries; the trailing
`0` of the C array is the TYPELIB terminator, not a name). Name lookups
are modelled with `List.get?`, so an out-of-range index yields `none`
rather than a name. -/
def stage_names : List String :=
  ["START", "FLUSH", "BLOCK_DDL", "BLOCK_COMMIT", "END"]

/-- Combined per-session (`THD`) and process-global state touched by
`backup.cc`.  `stage_log` records, oldest first, every value assigned to
`thd->current_backup_stage`; `signals`, `releases`, `prepare_calls` and
`ha_end_calls` count `mysql_cond_signal(&COND_backup)`,
`mdl_context.release_lock(backup_flush_ticket)`,
`ha_prepare_for_backup()` and `ha_end_backup()` invocations.  A ticket
is modelled by its current MDL type. -/
structure ServerState where
  current_backup_stage : backup_stages
  backup_running : Bool
  backup_flush_ticket : Option mdl_type
  mdl_backup_ticket : Option mdl_type
  stage_log : List backup_stages
  signals : Nat
  releases : Nat
  prepare_calls : Nat
  ha_end_calls : Nat
deriving DecidableEq, Repr

/-- Assignment `thd->current_backup_stage= s`, also recorded in the log. -/
def setStage (st : ServerState) (s : backup_stages) : ServerState :=
  { st with current_backup_stage := s, stage_log := st.stage_log ++ [s] }

/-- Outcomes of the external calls performed during one entry-point
invocation: session flags read by `backup_start`, and success/failure of
each lock-manager and table-subsystem call, in the order the code makes
them. -/
structure Oracle where
  has_read_only_protection : Bool
  locked_tables_mode : Bool
  killed : Bool
  acquire_flush_fails : Bool
  upgrade_wait_flush_fails : Bool
  flush_non_trans_fails : Bool
  is_error : Bool
  upgrade_wait_ddl_fails : Bool
  upgrade_wait_commit_fails : Bool
  upgrade_backup_ddl_fails : Bool
deriving DecidableEq, Repr

/-- State after `backup_init()` with a fresh session
(`current_backup_stage` starts as `BACKUP_FINISHED`). -/
def backup_init : ServerState :=
  ⟨.BACKUP_FINISHED, false, none, none, [], 0, 0, 0, 0⟩

/-- `backup_start`: reset stage to `BACKUP_FINISHED` for the next test,
fail on read-only protection; set stage to `BACKUP_START`; fail on
`locked_tables_mode`; wait on `COND_backup` while `backup_running` and
not killed; a killed session signals the condition and fails; otherwise
set `backup_running` and call `ha_prepare_for_backup()`.  Result `none`
models the wait loop never returning (running backup, session not
killed); the returned `Bool` is the C `bool` result (`true` = failure). -/
def backup_start (st : ServerState) (o : Oracle) : Option (ServerState × Bool) :=
  let st1 := setStage st .BACKUP_FINISHED
  if o.has_read_only_protection then some (st1, true)
  else
    let st2 := setStage st1 .BACKUP_START
    if o.locked_tables_mode then some (st2, true)
    else if o.killed then some ({ st2 with signals := st2.signals + 1 }, true)
    else if st2.backup_running then none
    else some ({ st2 with backup_running := true,
                          prepare_calls := st2.prepare_calls + 1 }, false)

/-- `backup_flush`: acquire a new `MDL_BACKUP_FLUSH` ticket (failure is
a stage failure), store it in `backup_flush_ticket`, then
`purge_tables(false)` (no modelled state). -/
def backup_flush (st : ServerState) (o : Oracle) : ServerState × Bool :=
  if o.acquire_flush_fails then (st, true)
  else ({ st with backup_flush_ticket := some .MDL_BACKUP_FLUSH }, false)

/-- `backup_block_ddl`: upgrade the flush ticket to
`MDL_BACKUP_WAIT_FLUSH` (failure is a stage failure); then
`flush_tables(FLUSH_NON_TRANS_TABLES)` — on its failure the function
returns `thd->is_error()` immediately; otherwise upgrade the ticket to
`MDL_BACKUP_WAIT_DDL`.  A successful upgrade changes the ticket's type;
a failed upgrade leaves it unchanged.  (The C code would dereference a
null `backup_flush_ticket`; type updates are modelled on the ticket when
present.) -/
def backup_block_ddl (st : ServerState) (o : Oracle) : ServerState × Bool :=
  if o.upgrade_wait_flush_fails then (st, true)
  else
    let st1 := { st with backup_flush_ticket :=
      st.backup_flush_ticket.map fun _ => mdl_type.MDL_BACKUP_WAIT_FLUSH }
    if o.flush_non_trans_fails then (st1, o.is_error)
    else if o.upgrade_wait_ddl_fails then (st1, true)
    else ({ st1 with backup_flush_ticket :=
      st1.backup_flush_ticket.map fun _ => mdl_type.MDL_BACKUP_WAIT_DDL }, false)

/-- `backup_block_commit`: upgrade the flush ticket to
`MDL_BACKUP_WAIT_COMMIT` (failure is a stage failure), then
`flush_tables(FLUSH_SYS_TABLES)` whose result is ignored. -/
def backup_block_commit (st : ServerState) (o : Oracle) : ServerState × Bool :=
  if o.upgrade_wait_commit_fails then (st, true)
  else ({ st with backup_flush_ticket :=
    st.backup_flush_ticket.map fun _ => mdl_type.MDL_BACKUP_WAIT_COMMIT }, false)

/-- `backup_end`: if the session's stage is not `BACKUP_FINISHED`, set it
to `BACKUP_FINISHED`, release `backup_flush_ticket` if set, call
`ha_end_backup()`, clear `backup_running` and signal one waiter.  Always
returns 0 (success). -/
def backup_end (st : ServerState) : ServerState × Bool :=
  if st.current_backup_stage = .BACKUP_FINISHED then (st, false)
  else
    let st1 := setStage st .BACKUP_FINISHED
    let st2 :=
      match st1.backup_flush_ticket with
      | some _ => { st1 with backup_flush_ticket := none, releases := st1.releases + 1 }
      | none => st1
    ({ st2 with backup_running := false,
                signals := st2.signals + 1,
                ha_end_calls := st2.ha_end_calls + 1 }, false)

/-- The errors `run_backup_stage` can raise via `my_error`; stage names
passed to the error are `stage_names` lookups, `none` when the index is
outside the five valid entries. -/
inductive BackupError where
  | NOT_RUNNING
  | WRONG_STAGE (requested current : Option String)
  | STAGE_FAILED (requested : Option String)
deriving DecidableEq, Repr

/-- Result of one `run_backup_stage` invocation: final state, the error
raised (if the C function returned 1), and whether the `BACKUP_FINISHED`
switch case guarded by `DBUG_ASSERT(0)` was reached. -/
structure RunResult where
  st : ServerState
  err : Option BackupError
  asserted : Bool
deriving DecidableEq, Repr

/-- One iteration body of the stage loop in `run_backup_stage`: assign
`thd->current_backup_stage= next_stage`, dispatch on the stage, and
return the updated state, the handler result `res`, and whether the
asserted `BACKUP_FINISHED` case was reached.  On a `BACKUP_START`
failure the stage is additionally reset to `BACKUP_FINISHED`. -/
def run_stage_case (st : ServerState) (o : Oracle) (next : backup_stages) :
    Option (ServerState × Bool × Bool) :=
  let st1 := setStage st next
  match next with
  | .BACKUP_START =>
      (backup_start st1 o).map fun p =>
        if p.2 then (setStage p.1 .BACKUP_FINISHED, true, false)
        else (p.1, false, false)
  | .BACKUP_FLUSH =>
      let p := backup_flush st1 o
      some (p.1, p.2, false)
  | .BACKUP_WAIT_FOR_FLUSH =>
      let p := backup_block_ddl st1 o
      some (p.1, p.2, false)
  | .BACKUP_LOCK_COMMIT =>
      let p := backup_block_commit st1 o
      some (p.1, p.2, false)
  | .BACKUP_END =>
      let p := backup_end st1
      some (p.1, p.2, false)
  | .BACKUP_FINISHED =>
      some (st1, false, true)

/-- One step of the `do … while` loop of `run_backup_stage`, with the
continuation `recur` standing for the next iteration: dispatch the stage
at index `next`; on a handler failure stop and raise
`ER_BACKUP_STAGE_FAILED(stage_names[(uint) stage])` — naming the
originally requested stage; continue while
`(uint) next_stage <= (uint) stage`. -/
def run_loop_body (o : Oracle) (stage : backup_stages)
    (recur : ServerState → Nat → Option RunResult)
    (st : ServerState) (next : Nat) : Option RunResult :=
  match run_stage_case st o (stage_of_uint next) with
  | none => none
  | some (st1, res, asrt) =>
      if res then
        some ⟨st1, some (.STAGE_FAILED (stage_names.get? stage.toUint)), asrt⟩
      else if next + 1 ≤ stage.toUint then
        recur st1 (next + 1)
      else
        some ⟨st1, none, asrt⟩

/-- The stage loop of `run_backup_stage`, with `next` carried as the
`(uint)` value.  Six units of fuel bound the at most six iterations
(`next` strictly increases and runs to at most 5, so fuel 6 is never
exhausted from the entry points). -/
def run_loop (o : Oracle) (stage : backup_stages) :
    Nat → ServerState → Nat → Option RunResult
  | 0, _, _ => none
  | fuel + 1, st, next => run_loop_body o stage (run_loop o stage fuel) st next

/-- `run_backup_stage(thd, stage)`: from `BACKUP_FINISHED` only
`BACKUP_START` is accepted (else `ER_BACKUP_NOT_RUNNING`); from any
other stage the request must be numerically above the current stage
(else `ER_BACKUP_WRONG_STAGE` naming both stages), except that
`BACKUP_END` jumps directly to the end stage; then the stage loop runs
from the computed first stage through the requested one. -/
def run_backup_stage (st : ServerState) (o : Oracle) (stage : backup_stages) :
    Option RunResult :=
  if st.current_backup_stage = .BACKUP_FINISHED then
    if stage ≠ .BACKUP_START then
      some ⟨st, some .NOT_RUNNING, false⟩
    else
      run_loop o stage 6 st 0
  else
    if st.current_backup_stage.toUint ≥ stage.toUint then
      some ⟨st, some (.WRONG_STAGE (stage_names.get? stage.toUint)
        (stage_names.get? st.current_backup_stage.toUint)), false⟩
    else if stage = .BACKUP_END then
      run_loop o stage 6 st stage.toUint
    else
      run_loop o stage 6 st (st.current_backup_stage.toUint + 1)

/-- `backup_set_alter_copy_lock`: downgrade the session's
`mdl_backup_ticket` to `MDL_BACKUP_ALTER_COPY`; no-op when the ticket is
null (LOCK TABLES case). -/
def backup_set_alter_copy_lock (st : ServerState) : ServerState :=
  match st.mdl_backup_ticket with
  | some _ => { st with mdl_backup_ticket := some .MDL_BACKUP_ALTER_COPY }
  | none => st

/-- `backup_reset_alter_copy_lock`: upgrade the session's
`mdl_backup_ticket` to `MDL_BACKUP_DDL` (can fail, e.g. if the MDL lock
was killed; a failed upgrade leaves the ticket unchanged); no-op
returning success when the ticket is null. -/
def backup_reset_alter_copy_lock (st : ServerState) (o : Oracle) :
    ServerState × Bool :=
  match st.mdl_backup_ticket with
  | some _ =>
      if o.upgrade_backup_ddl_fails then (st, true)
      else ({ st with mdl_backup_ticket := some .MDL_BACKUP_DDL }, false)
  | none => (st, false)

/-- Rank of a stage in the order the specification uses, with
`FINISHED` at the bottom (it doubles as "no backup active" and "backup
concluded"); on the five proper stages it agrees with the numeric enum
order. -/
def stage_rank : backup_stages → Nat
  | .BACKUP_FINISHED => 0
  | .BACKUP_START => 1
  | .BACKUP_FLUSH => 2
  | .BACKUP_WAIT_FOR_FLUSH => 3
  | .BACKUP_LOCK_COMMIT => 4
  | .BACKUP_END => 5

/-- Whether the handler of a given stage fails, read off the stage
handlers: each handler's success depends only on the oracle (the
outcomes of its external calls), not on the session state.
`BACKUP_WAIT_FOR_FLUSH` mirrors `backup_block_ddl`: a `flush_tables`
failure fails the stage only together with `thd->is_error()`, and when
`flush_tables` fails without a session error the function returns
success early, never consulting the second upgrade. -/
def handler_fails (o : Oracle) : backup_stages → Bool
  | .BACKUP_START => o.has_read_only_protection || o.locked_tables_mode || o.killed
  | .BACKUP_FLUSH => o.acquire_flush_fails
  | .BACKUP_WAIT_FOR_FLUSH =>
      o.upgrade_wait_flush_fails || (o.flush_non_trans_fails && o.is_error) ||
        (!o.flush_non_trans_fails && o.upgrade_wait_ddl_fails)
  | .BACKUP_LOCK_COMMIT => o.upgrade_wait_commit_fails
  | .BACKUP_END => false
  | .BACKUP_FINISHED => false

/-- The `(uint)` index at which the stage loop starts, as computed by
`run_backup_stage` from the current stage `cs` and the requested stage
`s`: 0 from `BACKUP_FINISHED`, the requested index itself when `s` is
`BACKUP_END` (direct jump), and `cs + 1` otherwise. -/
def run_start_index (cs s : backup_stages) : Nat :=
  if cs = .BACKUP_FINISHED then 0
  else if s = .BACKUP_END then s.toUint
  else cs.toUint + 1

/-- The ascending list of stages with `(uint)` indices `lo..hi`. -/
def stage_seq (lo hi : Nat) : List backup_stages :=
  (List.range (hi + 1 - lo)).map fun i => stage_of_uint (lo + i)

/-- The first stage in `lo..hi` whose handler fails under the oracle. -/
def first_failing (o : Oracle) (lo hi : Nat) : Option backup_stages :=
  (stage_seq lo hi).find? (handler_fails o)

/-- Checks that a raised `ER_BACKUP_STAGE_FAILED` error names exactly
the requested stage `s` (trivially true for other outcomes). -/
def requested_name_ok (s : backup_stages) : Option BackupError → Bool
  | some (.STAGE_FAILED a) => a == stage_names.get? s.toUint
  | _ => true

/-- Checks that a raised `ER_BACKUP_STAGE_FAILED` left the session at
the first failing stage of the executed sequence — at `BACKUP_FINISHED`
when that stage is `BACKUP_START` (trivially true for other
outcomes).  `cs` is the stage before the call, `fin` the stage after. -/
def stage_failed_placement_ok (o : Oracle) (cs s fin : backup_stages) :
    Option BackupError → Bool
  | some (.STAGE_FAILED _) =>
      ((first_failing o (run_start_index cs s) s.toUint).map fun f =>
        if f = .BACKUP_START then backup_stages.BACKUP_FINISHED else f) == some fin
  | _ => true

/-- Checks that every `stage_names` lookup carried by an error found a
valid name (no out-of-range index). -/
def err_names_ok : Option BackupError → Bool
  | some (.WRONG_STAGE a b) => a.isSome && b.isSome
  | some (.STAGE_FAILED a) => a.isSome
  | _ => true

/-- State invariant maintained by the entry points: the session never
rests at `BACKUP_END` (the END handler always concludes to
`BACKUP_FINISHED`), and the coordinator's flush ticket exists only
while the session stage is in `BACKUP_FLUSH..BACKUP_LOCK_COMMIT`.  The
converse of the ticket clause deliberately does not hold: a failed
FLUSH acquisition leaves the stage at `BACKUP_FLUSH` with no ticket. -/
def StInv (st : ServerState) : Prop :=
  st.current_backup_stage ≠ .BACKUP_END ∧
  (st.backup_flush_ticket = none ∨
   st.current_backup_stage = .BACKUP_FLUSH ∨
   st.current_backup_stage = .BACKUP_WAIT_FOR_FLUSH ∨
   st.current_backup_stage = .BACKUP_LOCK_COMMIT)

/-- Bool-level check that the stage ranks along a list never decrease. -/
def ranks_nondecreasing : List backup_stages → Bool
  | a :: b :: t => decide (stage_rank a ≤ stage_rank b) && ranks_nondecreasing (b :: t)
  | _ => true


/-- Oracle under which every external call succeeds and no session flag
is set. -/
def o_ok : Oracle := ⟨false, false, false, false, false, false, false, false, false, false⟩

/-- Oracle under which only the FLUSH stage's lock acquisition fails. -/
def o_flush_fail : Oracle := ⟨false, false, false, true, false, false, false, false, false, false⟩

/-- Oracle for a session that is killed while waiting in START. -/
def o_killed : Oracle := ⟨false, false, true, false, false, false, false, false, false, false⟩

/-- State after a successful `BACKUP STAGE START` from `backup_init`
under `o_ok` (the log records the three assignments made on the way:
START by the stage loop, then FINISHED and START inside
`backup_start`). -/
def st_started : ServerState :=
  ⟨.BACKUP_START, true, none, none,
   [.BACKUP_START, .BACKUP_FINISHED, .BACKUP_START], 0, 0, 1, 0⟩

/-- State after a further successful `BACKUP STAGE FLUSH` under `o_ok`:
the flush ticket is held at `MDL_BACKUP_FLUSH`. -/
def st_flush : ServerState :=
  ⟨.BACKUP_FLUSH, true, some .MDL_BACKUP_FLUSH, none,
   [.BACKUP_START, .BACKUP_FINISHED, .BACKUP_START, .BACKUP_FLUSH], 0, 0, 1, 0⟩

/-- State after a `BACKUP STAGE FLUSH` whose lock acquisition failed
(`o_flush_fail`): the stage was left at `BACKUP_FLUSH` by the stage
loop, but no ticket is held. -/
def st_flush_failed : ServerState :=
  ⟨.BACKUP_FLUSH, true, none, none,
   [.BACKUP_START, .BACKUP_FINISHED, .BACKUP_START, .BACKUP_FLUSH], 0, 0, 1, 0⟩

/-- State returned by `backup_start` when the session is killed while
waiting (`o_killed` from `backup_init`): one waiter signalled, stage
left at `BACKUP_START` for the stage runner to reset. -/
def st_killed_result : ServerState :=
  ⟨.BACKUP_START, false, none, none,
   [.BACKUP_FINISHED, .BACKUP_START], 1, 0, 0, 0⟩

/-- Oracle in which `flush_tables(FLUSH_NON_TRANS_TABLES)` fails while
the session has no raised error (`thd->is_error()` false); every lock
operation succeeds. -/
def c8_oracle : Oracle := ⟨false, false, false, false, false, true, false, false, false, false⟩

/-- A session between FLUSH and BLOCK_DDL: flush ticket held at
`MDL_BACKUP_FLUSH`. -/
def c8_state : ServerState :=
  ⟨.BACKUP_FLUSH, true, some .MDL_BACKUP_FLUSH, none, [], 0, 0, 1, 0⟩

/-- A session holding an alter-copy (`mdl_backup_ticket`) lock at
`MDL_BACKUP_DDL`, as an ALTER TABLE does when backup blocks DDL. -/
def st_alter : ServerState :=
  ⟨.BACKUP_FINISHED, false, none, some .MDL_BACKUP_DDL, [], 0, 0, 0, 0⟩

/-- States reachable from `backup_init` through the entry points of
`backup.cc`: `run_backup_stage` with one of the five externally
nameable stages (the TYPELIB `backup_stage_names` has exactly five
entries, so `BACKUP_FINISHED` cannot be requested), the unconditional
`backup_end` (session teardown), the two alter-copy adapter calls, and
the external schema-change code installing or clearing the session's
`mdl_backup_ticket`. -/
inductive Reachable : ServerState → Prop where
  | init : Reachable backup_init
  | run {st : ServerState} {o : Oracle} {s : backup_stages} {r : RunResult} :
      Reachable st → s ≠ .BACKUP_FINISHED →
      run_backup_stage st o s = some r → Reachable r.st
  | end_backup {st : ServerState} : Reachable st → Reachable (backup_end st).1
  | set_alter {st : ServerState} : Reachable st →
      Reachable (backup_set_alter_copy_lock st)
  | reset_alter {st : ServerState} {o : Oracle} : Reachable st →
      Reachable (backup_reset_alter_copy_lock st o).1
  | ddl_ticket {st : ServerState} (t : Option mdl_type) : Reachable st →
      Reachable { st with mdl_backup_ticket := t }

/-- Unfolding equation for `run_loop` at fuel 6 (the fuel used by
`run_backup_stage`). -/
theorem run_loop_eq6 (o : Oracle) (stage : backup_stages) (st : ServerState) (next : Nat) :
    run_loop o stage 6 st next = run_loop_body o stage (run_loop o stage 5) st next := rfl

/-- Unfolding equation for `run_loop` at fuel 5. -/
theorem run_loop_eq5 (o : Oracle) (stage : backup_stages) (st : ServerState) (next : Nat) :
    run_loop o stage 5 st next = run_loop_body o stage (run_loop o stage 4) st next := rfl

/-- Unfolding equation for `run_loop` at fuel 4. -/
theorem run_loop_eq4 (o : Oracle) (stage : backup_stages) (st : ServerState) (next : Nat) :
    run_loop o stage 4 st next = run_loop_body o stage (run_loop o stage 3) st next := rfl

/-- Unfolding equation for `run_loop` at fuel 3. -/
theorem run_loop_eq3 (o : Oracle) (stage : backup_stages) (st : ServerState) (next : Nat) :
    run_loop o stage 3 st next = run_loop_body o stage (run_loop o stage 2) st next := rfl

/-- Unfolding equation for `run_loop` at fuel 2. -/
theorem run_loop_eq2 (o : Oracle) (stage : backup_stages) (st : ServerState) (next : Nat) :
    run_loop o stage 2 st next = run_loop_body o stage (run_loop o stage 1) st next := rfl

/-- Unfolding equation for `run_loop` at fuel 1. -/
theorem run_loop_eq1 (o : Oracle) (stage : backup_stages) (st : ServerState) (next : Nat) :
    run_loop o stage 1 st next = run_loop_body o stage (run_loop o stage 0) st next := rfl

/-- `ranks_nondecreasing` agrees with `List.Chain'` of rank-monotonicity. -/
theorem ranks_nondecreasing_iff (l : List backup_stages) :
    ranks_nondecreasing l = true ↔
      List.Chain' (fun a b => stage_rank a ≤ stage_rank b) l := by
  induction l with
  | nil => simp [ranks_nondecreasing]
  | cons a l ih =>
      cases l with
      | nil => simp [ranks_nondecreasing]
      | cons b t =>
          rw [List.chain'_cons, ← ih]
          simp [ranks_nondecreasing]

set_option maxHeartbeats 0 in
/-- Exhaustive behavioural characterisation of one `run_backup_stage`
call with an externally nameable stage, proved by case analysis on the
current stage, the requested stage and the outcomes of every external
call on the executed path.  The conjuncts: a raised `STAGE_FAILED`
names the requested stage; its final stage is the first failing handler
of the executed sequence (reset to `BACKUP_FINISHED` when that handler
is START); every `stage_names` lookup carried by an error is in range;
the `DBUG_ASSERT(0)` case is never reached; at call boundaries the
stage only becomes `BACKUP_FINISHED` via an END request (when it was
running) and otherwise never decreases in rank; `StInv` is preserved;
and the non-`FINISHED` stage assignments made during the call are
rank-monotone. -/
theorem run_backup_stage_master (st : ServerState) (o : Oracle) (s : backup_stages)
    (r : RunResult) (hs : s ≠ .BACKUP_FINISHED)
    (h : run_backup_stage st o s = some r) :
    requested_name_ok s r.err = true
    ∧ stage_failed_placement_ok o st.current_backup_stage s r.st.current_backup_stage r.err = true
    ∧ err_names_ok r.err = true
    ∧ r.asserted = false
    ∧ (st.current_backup_stage ≠ .BACKUP_FINISHED →
        r.st.current_backup_stage = .BACKUP_FINISHED → s = .BACKUP_END)
    ∧ (r.st.current_backup_stage ≠ .BACKUP_FINISHED →
        st.current_backup_stage = .BACKUP_FINISHED ∨
        stage_rank st.current_backup_stage ≤ stage_rank r.st.current_backup_stage)
    ∧ (StInv st → StInv r.st)
    ∧ ranks_nondecreasing
        ((r.st.stage_log.drop st.stage_log.length).filter fun x =>
          !(x == backup_stages.BACKUP_FINISHED)) = true := by
  obtain ⟨cs, br, ft, mt, lg, sg, rl, pc, he⟩ := st
  obtain ⟨ro, ltm, kd, af, uwf, fnt, ise, uwd, uwc, ud⟩ := o
  cases s with
  | BACKUP_FINISHED => exact absurd rfl hs
  | BACKUP_START =>
      cases cs <;> cases ro <;> cases ltm <;> cases kd <;> cases br <;>
        first
          | exact Option.noConfusion h
          | (simp only [run_backup_stage, run_loop_eq6, run_loop_eq5, run_loop_eq4,
                run_loop_eq3, run_loop_eq2, run_loop_eq1, run_loop_body, run_stage_case,
                backup_start, backup_flush, backup_block_ddl, backup_block_commit,
                backup_end, setStage, stage_of_uint, backup_stages.toUint,
                Option.map_some', Option.map_none', Option.some.injEq,
                reduceIte, reduceCtorEq, Nat.reduceLeDiff, ge_iff_le, ne_eq,
                not_false_eq_true, not_true_eq_false, ite_true, ite_false] at h
             subst h
             exact ⟨rfl, rfl, rfl, rfl, of_decide_eq_true rfl, of_decide_eq_true rfl,
               fun hI => by
                 first
                   | exact hI
                   | exact ⟨of_decide_eq_true rfl, Or.inl rfl⟩
                   | exact ⟨of_decide_eq_true rfl, Or.inr (of_decide_eq_true rfl)⟩
                   | (obtain ⟨hI1, hI2 | hI2 | hI2 | hI2⟩ := hI <;>
                        first
                          | (subst hI2; exact ⟨of_decide_eq_true rfl, Or.inl rfl⟩)
                          | exact absurd hI2 (of_decide_eq_true rfl)),
               by
                 simp only [List.append_assoc, List.singleton_append, List.cons_append,
                   List.nil_append, List.drop_left, List.drop_length]
                 rfl⟩)
  | BACKUP_FLUSH =>
      cases cs <;> cases af <;>
        first
          | exact Option.noConfusion h
          | (simp only [run_backup_stage, run_loop_eq6, run_loop_eq5, run_loop_eq4,
                run_loop_eq3, run_loop_eq2, run_loop_eq1, run_loop_body, run_stage_case,
                backup_start, backup_flush, backup_block_ddl, backup_block_commit,
                backup_end, setStage, stage_of_uint, backup_stages.toUint,
                Option.map_some', Option.map_none', Option.some.injEq,
                reduceIte, reduceCtorEq, Nat.reduceLeDiff, ge_iff_le, ne_eq,
                not_false_eq_true, not_true_eq_false, ite_true, ite_false] at h
             subst h
             exact ⟨rfl, rfl, rfl, rfl, of_decide_eq_true rfl, of_decide_eq_true rfl,
               fun hI => by
                 first
                   | exact hI
                   | exact ⟨of_decide_eq_true rfl, Or.inl rfl⟩
                   | exact ⟨of_decide_eq_true rfl, Or.inr (of_decide_eq_true rfl)⟩
                   | (obtain ⟨hI1, hI2 | hI2 | hI2 | hI2⟩ := hI <;>
                        first
                          | (subst hI2; exact ⟨of_decide_eq_true rfl, Or.inl rfl⟩)
                          | exact absurd hI2 (of_decide_eq_true rfl)),
               by
                 simp only [List.append_assoc, List.singleton_append, List.cons_append,
                   List.nil_append, List.drop_left, List.drop_length]
                 rfl⟩)
  | BACKUP_WAIT_FOR_FLUSH =>
      cases cs <;> cases af <;> cases uwf <;> cases fnt <;> cases ise <;> cases uwd <;>
        first
          | exact Option.noConfusion h
          | (simp only [run_backup_stage, run_loop_eq6, run_loop_eq5, run_loop_eq4,
                run_loop_eq3, run_loop_eq2, run_loop_eq1, run_loop_body, run_stage_case,
                backup_start, backup_flush, backup_block_ddl, backup_block_commit,
                backup_end, setStage, stage_of_uint, backup_stages.toUint,
                Option.map_some', Option.map_none', Option.some.injEq,
                reduceIte, reduceCtorEq, Nat.reduceLeDiff, ge_iff_le, ne_eq,
                not_false_eq_true, not_true_eq_false, ite_true, ite_false] at h
             subst h
             exact ⟨rfl, rfl, rfl, rfl, of_decide_eq_true rfl, of_decide_eq_true rfl,
               fun hI => by
                 first
                   | exact hI
                   | exact ⟨of_decide_eq_true rfl, Or.inl rfl⟩
                   | exact ⟨of_decide_eq_true rfl, Or.inr (of_decide_eq_true rfl)⟩
                   | (obtain ⟨hI1, hI2 | hI2 | hI2 | hI2⟩ := hI <;>
                        first
                          | (subst hI2; exact ⟨of_decide_eq_true rfl, Or.inl rfl⟩)
                          | exact absurd hI2 (of_decide_eq_true rfl)),
               by
                 simp only [List.append_assoc, List.singleton_append, List.cons_append,
                   List.nil_append, List.drop_left, List.drop_length]
                 rfl⟩)
  | BACKUP_LOCK_COMMIT =>
      cases cs <;> cases af <;> cases uwf <;> cases fnt <;> cases ise <;> cases uwd <;> cases uwc <;>
        first
          | exact Option.noConfusion h
          | (simp only [run_backup_stage, run_loop_eq6, run_loop_eq5, run_loop_eq4,
                run_loop_eq3, run_loop_eq2, run_loop_eq1, run_loop_body, run_stage_case,
                backup_start, backup_flush, backup_block_ddl, backup_block_commit,
                backup_end, setStage, stage_of_uint, backup_stages.toUint,
                Option.map_some', Option.map_none', Option.some.injEq,
                reduceIte, reduceCtorEq, Nat.reduceLeDiff, ge_iff_le, ne_eq,
                not_false_eq_true, not_true_eq_false, ite_true, ite_false] at h
             subst h
             exact ⟨rfl, rfl, rfl, rfl, of_decide_eq_true rfl, of_decide_eq_true rfl,
               fun hI => by
                 first
                   | exact hI
                   | exact ⟨of_decide_eq_true rfl, Or.inl rfl⟩
                   | exact ⟨of_decide_eq_true rfl, Or.inr (of_decide_eq_true rfl)⟩
                   | (obtain ⟨hI1, hI2 | hI2 | hI2 | hI2⟩ := hI <;>
                        first
                          | (subst hI2; exact ⟨of_decide_eq_true rfl, Or.inl rfl⟩)
                          | exact absurd hI2 (of_decide_eq_true rfl)),
               by
                 simp only [List.append_assoc, List.singleton_append, List.cons_append,
                   List.nil_append, List.drop_left, List.drop_length]
                 rfl⟩)
  | BACKUP_END =>
      cases cs <;> cases ft <;>
        first
          | exact Option.noConfusion h
          | (simp only [run_backup_stage, run_loop_eq6, run_loop_eq5, run_loop_eq4,
                run_loop_eq3, run_loop_eq2, run_loop_eq1, run_loop_body, run_stage_case,
                backup_start, backup_flush, backup_block_ddl, backup_block_commit,
                backup_end, setStage, stage_of_uint, backup_stages.toUint,
                Option.map_some', Option.map_none', Option.some.injEq,
                reduceIte, reduceCtorEq, Nat.reduceLeDiff, ge_iff_le, ne_eq,
                not_false_eq_true, not_true_eq_false, ite_true, ite_false] at h
             subst h
             exact ⟨rfl, rfl, rfl, rfl, of_decide_eq_true rfl, of_decide_eq_true rfl,
               fun hI => by
                 first
                   | exact hI
                   | exact ⟨of_decide_eq_true rfl, Or.inl rfl⟩
                   | exact ⟨of_decide_eq_true rfl, Or.inr (of_decide_eq_true rfl)⟩
                   | (obtain ⟨hI1, hI2 | hI2 | hI2 | hI2⟩ := hI <;>
                        first
                          | (subst hI2; exact ⟨of_decide_eq_true rfl, Or.inl rfl⟩)
                          | exact absurd hI2 (of_decide_eq_true rfl)),
               by
                 simp only [List.append_assoc, List.singleton_append, List.cons_append,
                   List.nil_append, List.drop_left, List.drop_length]
                 rfl⟩)

/-- `backup_end` preserves the state invariant. -/
theorem StInv_backup_end (st : ServerState) (h : StInv st) : StInv (backup_end st).1 := by
  obtain ⟨cs, br, ft, mt, lg, sg, rl, pc, he⟩ := st
  cases cs <;> cases ft <;>
    first
      | exact h
      | exact ⟨of_decide_eq_true rfl, Or.inl rfl⟩

/-- `backup_set_alter_copy_lock` touches only `mdl_backup_ticket`, so it
preserves the state invariant. -/
theorem StInv_set_alter (st : ServerState) (h : StInv st) :
    StInv (backup_set_alter_copy_lock st) := by
  obtain ⟨cs, br, ft, mt, lg, sg, rl, pc, he⟩ := st
  cases mt <;> exact h

/-- `backup_reset_alter_copy_lock` touches only `mdl_backup_ticket`, so
it preserves the state invariant. -/
theorem StInv_reset_alter (st : ServerState) (o : Oracle) (h : StInv st) :
    StInv (backup_reset_alter_copy_lock st o).1 := by
  obtain ⟨cs, br, ft, mt, lg, sg, rl, pc, he⟩ := st
  obtain ⟨ro, ltm, kd, af, uwf, fnt, ise, uwd, uwc, ud⟩ := o
  cases mt <;> cases ud <;> exact h

/-- Installing or clearing the session's `mdl_backup_ticket` preserves
the state invariant. -/
theorem StInv_ddl_ticket (st : ServerState) (t : Option mdl_type) (h : StInv st) :
    StInv { st with mdl_backup_ticket := t } := by
  obtain ⟨cs, br, ft, mt, lg, sg, rl, pc, he⟩ := st
  exact h

/-- Every reachable state satisfies the invariant: the session never
rests at `BACKUP_END`, and a held flush ticket implies the stage is in
`BACKUP_FLUSH..BACKUP_LOCK_COMMIT`. -/
theorem reachable_StInv {st : ServerState} (h : Reachable st) : StInv st := by
  induction h with
  | init => exact ⟨of_decide_eq_true rfl, Or.inl rfl⟩
  | run hR hs hrun ih => exact (run_backup_stage_master _ _ _ _ hs hrun).2.2.2.2.2.2.1 ih
  | end_backup hR ih => exact StInv_backup_end _ ih
  | set_alter hR ih => exact StInv_set_alter _ ih
  | reset_alter hR ih => exact StInv_reset_alter _ _ ih
  | ddl_ticket t hR ih => exact StInv_ddl_ticket _ t ih

/-- `st_started` is reachable: a successful START from the initial
state. -/
theorem reachable_st_started : Reachable st_started :=
  @Reachable.run backup_init o_ok .BACKUP_START ⟨st_started, none, false⟩
    Reachable.init (of_decide_eq_true rfl) rfl

/-- `st_flush` is reachable: a successful FLUSH after `st_started`. -/
theorem reachable_st_flush : Reachable st_flush :=
  @Reachable.run st_started o_ok .BACKUP_FLUSH ⟨st_flush, none, false⟩
    reachable_st_started (of_decide_eq_true rfl) rfl

/-- `st_flush_failed` is reachable: a FLUSH whose lock acquisition
failed, after `st_started`. -/
theorem reachable_st_flush_failed : Reachable st_flush_failed :=
  @Reachable.run st_started o_flush_fail .BACKUP_FLUSH
    ⟨st_flush_failed, some (.STAGE_FAILED (some "FLUSH")), false⟩
    reachable_st_started (of_decide_eq_true rfl) rfl

/-- Claim C1: for every call `advance(session, target_stage)` on a reachable
session state: from `BACKUP_FINISHED`, any request other than
`BACKUP_START` fails with `ER_BACKUP_NOT_RUNNING` and changes nothing;
from any other stage, a request that is not numerically above the
current stage and is not `BACKUP_END` fails with
`ER_BACKUP_WRONG_STAGE` naming the requested and the current stage; and
`BACKUP_END` is always accepted (the call returns success). -/
theorem run_backup_stage_validation (st : ServerState) (o : Oracle) (s : backup_stages)
    (hR : Reachable st) (hs : s ≠ .BACKUP_FINISHED) :
    (st.current_backup_stage = .BACKUP_FINISHED → s ≠ .BACKUP_START →
       run_backup_stage st o s = some ⟨st, some .NOT_RUNNING, false⟩)
    ∧ (st.current_backup_stage ≠ .BACKUP_FINISHED → s ≠ .BACKUP_END →
       s.toUint ≤ st.current_backup_stage.toUint →
       run_backup_stage st o s =
         some ⟨st, some (.WRONG_STAGE (stage_names.get? s.toUint)
           (stage_names.get? st.current_backup_stage.toUint)), false⟩)
    ∧ (st.current_backup_stage ≠ .BACKUP_FINISHED →
       (run_backup_stage st o .BACKUP_END).map RunResult.err = some none) := by
  have hI := reachable_StInv hR
  obtain ⟨cs, br, ft, mt, lg, sg, rl, pc, he⟩ := st
  refine ⟨?_, ?_, ?_⟩
  · intro h1 h2
    subst h1
    simp [run_backup_stage, h2]
  · intro h1 h2 h3
    simp only [run_backup_stage]
    rw [if_neg h1, if_pos h3]
  · intro h1
    cases cs <;>
      first
        | exact absurd rfl h1
        | exact absurd rfl hI.1
        | (cases ft <;> rfl)

/-- Claim C1 witness: from the initial (FINISHED) state, requesting FLUSH
fails with `ER_BACKUP_NOT_RUNNING` and leaves the state unchanged. -/
theorem run_backup_stage_validation_witness :
    run_backup_stage backup_init o_ok .BACKUP_FLUSH =
      some ⟨backup_init, some .NOT_RUNNING, false⟩ :=
  (run_backup_stage_validation backup_init o_ok .BACKUP_FLUSH Reachable.init
    (of_decide_eq_true rfl)).1 rfl (of_decide_eq_true rfl)

/-- Claim C2: from any reachable non-FINISHED stage, requesting
`BACKUP_END` executes only the END handler — the result equals
`backup_end` applied after the single stage assignment, so no skipped
intermediate handler runs — always succeeds, resets the stage to
`BACKUP_FINISHED`, clears the flush ticket, and releases it exactly
once when one was held (and not at all otherwise). -/
theorem run_backup_stage_end_jump (st : ServerState) (o : Oracle)
    (hR : Reachable st) (h1 : st.current_backup_stage ≠ .BACKUP_FINISHED) :
    run_backup_stage st o .BACKUP_END =
      some ⟨(backup_end (setStage st .BACKUP_END)).1, none, false⟩
    ∧ (backup_end (setStage st .BACKUP_END)).1.current_backup_stage = .BACKUP_FINISHED
    ∧ (backup_end (setStage st .BACKUP_END)).1.backup_flush_ticket = none
    ∧ (backup_end (setStage st .BACKUP_END)).1.releases =
        st.releases + (if st.backup_flush_ticket.isSome then 1 else 0) := by
  have hI := reachable_StInv hR
  obtain ⟨cs, br, ft, mt, lg, sg, rl, pc, he⟩ := st
  cases cs <;>
    first
      | exact absurd rfl h1
      | exact absurd rfl hI.1
      | (cases ft <;> exact ⟨rfl, rfl, rfl, rfl⟩)

/-- Claim C2 witness: the END jump applied at the reachable state
`st_flush`, which holds a ticket. -/
theorem run_backup_stage_end_jump_witness :
    run_backup_stage st_flush o_ok .BACKUP_END =
      some ⟨(backup_end (setStage st_flush .BACKUP_END)).1, none, false⟩
    ∧ (backup_end (setStage st_flush .BACKUP_END)).1.releases =
        st_flush.releases + (if st_flush.backup_flush_ticket.isSome then 1 else 0) :=
  ⟨(run_backup_stage_end_jump st_flush o_ok reachable_st_flush (of_decide_eq_true rfl)).1,
   (run_backup_stage_end_jump st_flush o_ok reachable_st_flush (of_decide_eq_true rfl)).2.2.2⟩

/-- Claim C3: `backup_end` (the always-available `end_backup` entry
point) is total and idempotent: it never returns an error from any
state, a second consecutive call is the identity, and calling it on a
session whose stage is already `BACKUP_FINISHED` changes no state at
all (stage, running flag, flush ticket, and all counters unchanged). -/
theorem backup_end_idempotent (st : ServerState) :
    (backup_end st).2 = false
    ∧ backup_end (backup_end st).1 = ((backup_end st).1, false)
    ∧ (st.current_backup_stage = .BACKUP_FINISHED → backup_end st = (st, false)) := by
  obtain ⟨cs, br, ft, mt, lg, sg, rl, pc, he⟩ := st
  cases cs <;> cases ft <;>
    first
      | exact ⟨rfl, rfl, fun _ => rfl⟩
      | exact ⟨rfl, rfl, fun hcon => absurd hcon (of_decide_eq_true rfl)⟩

/-- Claim C3 witness: `backup_end` on the never-started initial state
is a no-op returning success. -/
theorem backup_end_idempotent_witness : backup_end backup_init = (backup_init, false) :=
  (backup_end_idempotent backup_init).2.2 rfl

/-- Claim C4: whenever `run_backup_stage` fails with
`ER_BACKUP_STAGE_FAILED`, the error names the originally requested
stage (not the stage that failed), and execution stopped at the first
failing handler of the executed sequence: the session is left exactly
at that stage, except that a failing START resets the session to
`BACKUP_FINISHED`. -/
theorem run_backup_stage_stage_failed (st : ServerState) (o : Oracle)
    (s : backup_stages) (r : RunResult) (n : Option String)
    (hs : s ≠ .BACKUP_FINISHED) (h : run_backup_stage st o s = some r)
    (he : r.err = some (.STAGE_FAILED n)) :
    n = stage_names.get? s.toUint
    ∧ (first_failing o (run_start_index st.current_backup_stage s) s.toUint).map
        (fun f => if f = .BACKUP_START then backup_stages.BACKUP_FINISHED else f)
      = some r.st.current_backup_stage := by
  have hm := run_backup_stage_master st o s r hs h
  have h1 := hm.1
  have h2 := hm.2.1
  rw [he] at h1 h2
  simp only [requested_name_ok, stage_failed_placement_ok, beq_iff_eq] at h1 h2
  exact ⟨h1, h2⟩

/-- Claim C4 witness: a failed FLUSH acquisition surfaces
`STAGE_FAILED("FLUSH")` and leaves the session at `BACKUP_FLUSH`. -/
theorem run_backup_stage_stage_failed_witness :
    some "FLUSH" = stage_names.get? backup_stages.BACKUP_FLUSH.toUint
    ∧ (first_failing o_flush_fail
        (run_start_index st_started.current_backup_stage .BACKUP_FLUSH)
        backup_stages.BACKUP_FLUSH.toUint).map
        (fun f => if f = .BACKUP_START then backup_stages.BACKUP_FINISHED else f)
      = some ((⟨st_flush_failed, some (.STAGE_FAILED (some "FLUSH")), false⟩ : RunResult).st.current_backup_stage) :=
  run_backup_stage_stage_failed st_started o_flush_fail .BACKUP_FLUSH
    ⟨st_flush_failed, some (.STAGE_FAILED (some "FLUSH")), false⟩ (some "FLUSH")
    (of_decide_eq_true rfl) rfl rfl

/-- Claim C5 counterexample: the reachable state after a FLUSH stage
whose lock acquisition failed has `current_backup_stage = BACKUP_FLUSH`
— inside the claimed `[FLUSH, END)` window — yet holds no flush ticket,
so the claimed "non-none if and only if FLUSH ≤ stage < END" is false
precisely in the case the claim singles out. -/
theorem flush_ticket_stage_counterexample :
    Reachable st_flush_failed
    ∧ st_flush_failed.current_backup_stage = .BACKUP_FLUSH
    ∧ st_flush_failed.backup_flush_ticket = none
    ∧ ¬ (st_flush_failed.backup_flush_ticket.isSome = true ↔
          (backup_stages.BACKUP_FLUSH.toUint ≤ st_flush_failed.current_backup_stage.toUint ∧
           st_flush_failed.current_backup_stage.toUint < backup_stages.BACKUP_END.toUint)) :=
  ⟨reachable_st_flush_failed, rfl, rfl, by decide⟩

/-- Claim C5 (amended): in every reachable state, if the coordinator
holds a flush ticket then the owning session's stage is at least
`BACKUP_FLUSH` and strictly below `BACKUP_END`; the converse fails
after a FLUSH whose lock acquisition failed (see the counterexample),
where the stage is `BACKUP_FLUSH` but no ticket is held. -/
theorem flush_ticket_stage_range (st : ServerState) (hR : Reachable st)
    (hsome : st.backup_flush_ticket.isSome = true) :
    backup_stages.BACKUP_FLUSH.toUint ≤ st.current_backup_stage.toUint ∧
    st.current_backup_stage.toUint < backup_stages.BACKUP_END.toUint := by
  have hI := reachable_StInv hR
  obtain ⟨h1, h2 | h2 | h2 | h2⟩ := hI
  · rw [h2] at hsome
    exact absurd hsome (of_decide_eq_true rfl)
  · rw [h2]
    exact ⟨of_decide_eq_true rfl, of_decide_eq_true rfl⟩
  · rw [h2]
    exact ⟨of_decide_eq_true rfl, of_decide_eq_true rfl⟩
  · rw [h2]
    exact ⟨of_decide_eq_true rfl, of_decide_eq_true rfl⟩

/-- Claim C5 witness: the ticket-holding reachable state `st_flush`
is inside the window. -/
theorem flush_ticket_stage_range_witness :
    backup_stages.BACKUP_FLUSH.toUint ≤ st_flush.current_backup_stage.toUint ∧
    st_flush.current_backup_stage.toUint < backup_stages.BACKUP_END.toUint :=
  flush_ticket_stage_range st_flush reachable_st_flush rfl

/-- Claim C6: for every session holding an alter-copy ticket
(`mdl_backup_ticket`), `backup_set_alter_copy_lock` moves it laterally
to `MDL_BACKUP_ALTER_COPY` and a successful
`backup_reset_alter_copy_lock` returns it to `MDL_BACKUP_DDL` (the
spec's WAIT_DDL for this ticket, the mode the lateral move left when
the ticket was at `MDL_BACKUP_DDL`); with no ticket both calls are
no-ops and the reset returns success. -/
theorem alter_copy_lock_roundtrip (st : ServerState) (o : Oracle) :
    (∀ m, st.mdl_backup_ticket = some m → o.upgrade_backup_ddl_fails = false →
       (backup_set_alter_copy_lock st).mdl_backup_ticket = some .MDL_BACKUP_ALTER_COPY ∧
       backup_reset_alter_copy_lock (backup_set_alter_copy_lock st) o =
         ({ st with mdl_backup_ticket := some .MDL_BACKUP_DDL }, false))
    ∧ (st.mdl_backup_ticket = none →
       backup_set_alter_copy_lock st = st ∧
       backup_reset_alter_copy_lock st o = (st, false)) := by
  obtain ⟨cs, br, ft, mt, lg, sg, rl, pc, he⟩ := st
  obtain ⟨ro, ltm, kd, af, uwf, fnt, ise, uwd, uwc, ud⟩ := o
  constructor
  · intro m hm hf
    subst hm
    subst hf
    exact ⟨rfl, rfl⟩
  · intro hm
    subst hm
    exact ⟨rfl, rfl⟩

/-- Claim C6 witness: the round trip on a session whose ticket is at
`MDL_BACKUP_DDL`. -/
theorem alter_copy_lock_roundtrip_witness :
    (backup_set_alter_copy_lock st_alter).mdl_backup_ticket = some .MDL_BACKUP_ALTER_COPY ∧
    backup_reset_alter_copy_lock (backup_set_alter_copy_lock st_alter) o_ok =
      ({ st_alter with mdl_backup_ticket := some .MDL_BACKUP_DDL }, false) :=
  (alter_copy_lock_roundtrip st_alter o_ok).1 .MDL_BACKUP_DDL rfl rfl

/-- Claim C7: every failure path of the START handler leaves the
global `backup_running` flag exactly as it was (in particular false if
it was false): the read-only-protection and locked-tables precondition
checks fail before the global slot is touched (running flag and signal
count unchanged), and a session cancelled while waiting in the START
wait loop fails without setting `running` and signals `COND_backup`
once, waking another waiter, before returning. -/
theorem backup_start_failure_paths (st : ServerState) (o : Oracle) (st2 : ServerState)
    (h : backup_start st o = some (st2, true)) :
    st2.backup_running = st.backup_running
    ∧ (o.has_read_only_protection = true ∨ o.locked_tables_mode = true →
        st2.signals = st.signals)
    ∧ (o.has_read_only_protection = false → o.locked_tables_mode = false →
        o.killed = true ∧ st2.signals = st.signals + 1) := by
  obtain ⟨cs, br, ft, mt, lg, sg, rl, pc, he⟩ := st
  obtain ⟨ro, ltm, kd, af, uwf, fnt, ise, uwd, uwc, ud⟩ := o
  cases ro <;> cases ltm <;> cases kd <;> cases br <;>
    (simp only [backup_start, setStage, reduceIte, Option.some.injEq, Prod.mk.injEq,
       reduceCtorEq, and_false, and_true] at h
     all_goals
       (subst h
        exact ⟨rfl, by simp, by simp⟩))

/-- Claim C7 witness: a session killed while waiting from the initial
state fails with one extra signal. -/
theorem backup_start_failure_paths_witness :
    o_killed.killed = true ∧ st_killed_result.signals = backup_init.signals + 1 :=
  (backup_start_failure_paths backup_init o_killed st_killed_result rfl).2.2 rfl rfl

/-- Claim C8 (code bug evidence): in `backup_block_ddl`, when
`flush_tables(FLUSH_NON_TRANS_TABLES)` fails while the session has no
raised error, the code returns `thd->is_error()` — i.e. stage success —
immediately, skipping the upgrade to `MDL_BACKUP_WAIT_DDL`: the stage
reports success with the ticket still at `MDL_BACKUP_WAIT_FLUSH`, so
DDL is never blocked, contradicting the function's own documented
purpose ("Block TRUNCATE TABLE, CREATE TABLE, DROP TABLE and RENAME
TABLE") and its comment that it is ok to continue with the next backup
stage after a flush error. -/
theorem block_ddl_flush_failure_bug :
    backup_block_ddl c8_state c8_oracle =
      ({ c8_state with backup_flush_ticket := some .MDL_BACKUP_WAIT_FLUSH }, false)
    ∧ (backup_block_ddl c8_state c8_oracle).1.backup_flush_ticket ≠ some .MDL_BACKUP_WAIT_DDL
    ∧ (run_backup_stage c8_state c8_oracle .BACKUP_WAIT_FOR_FLUSH).map RunResult.err = some none
    ∧ ((run_backup_stage c8_state c8_oracle .BACKUP_WAIT_FOR_FLUSH).map
        fun r => r.st.backup_flush_ticket) = some (some .MDL_BACKUP_WAIT_FLUSH) := by
  exact ⟨rfl, of_decide_eq_true rfl, rfl, rfl⟩

/-- Claim C9 counterexample: a fully successful START request from
the initial state assigns `current_backup_stage` the sequence START,
FINISHED, START — the START handler resets the stage to
`BACKUP_FINISHED` before its read-only check even on the success path —
so the assignment-level sequence is not monotonically non-decreasing in
the spec's order and the mid-call reset to FINISHED is neither a total
failure at START nor a reset upon reaching END. -/
theorem stage_monotonicity_counterexample :
    run_backup_stage backup_init o_ok .BACKUP_START = some ⟨st_started, none, false⟩
    ∧ st_started.stage_log = [.BACKUP_START, .BACKUP_FINISHED, .BACKUP_START]
    ∧ ¬ List.Chain' (fun a b => stage_rank a ≤ stage_rank b) st_started.stage_log :=
  ⟨rfl, rfl, fun hch =>
    absurd ((ranks_nondecreasing_iff _).2 hch) (of_decide_eq_true rfl)⟩

/-- Claim C9 (amended): per `run_backup_stage` call with an external
target, `current_backup_stage` observed at call boundaries never
decreases in the spec order, resetting to `BACKUP_FINISHED` from a
running state only on an END request (and, within a call, on a total
failure at START); and the sequence of non-FINISHED assignments made
during the call is monotonically non-decreasing.  The transient
FINISHED assignment made inside the START handler before its read-only
check (restored to START immediately after) is excluded, as the
counterexample forces. -/
theorem stage_monotonicity_amended (st : ServerState) (o : Oracle) (s : backup_stages)
    (r : RunResult) (hs : s ≠ .BACKUP_FINISHED)
    (h : run_backup_stage st o s = some r) :
    (st.current_backup_stage ≠ .BACKUP_FINISHED →
       r.st.current_backup_stage = .BACKUP_FINISHED → s = .BACKUP_END)
    ∧ (r.st.current_backup_stage ≠ .BACKUP_FINISHED →
       st.current_backup_stage = .BACKUP_FINISHED ∨
       stage_rank st.current_backup_stage ≤ stage_rank r.st.current_backup_stage)
    ∧ List.Chain' (fun a b => stage_rank a ≤ stage_rank b)
        ((r.st.stage_log.drop st.stage_log.length).filter fun x =>
          !(x == backup_stages.BACKUP_FINISHED)) := by
  have hm := run_backup_stage_master st o s r hs h
  exact ⟨hm.2.2.2.2.1, hm.2.2.2.2.2.1,
    (ranks_nondecreasing_iff _).1 hm.2.2.2.2.2.2.2⟩

/-- Claim C9 witness: the non-FINISHED assignments of the successful
START call are non-decreasing. -/
theorem stage_monotonicity_amended_witness :
    List.Chain' (fun a b => stage_rank a ≤ stage_rank b)
      ((st_started.stage_log.drop backup_init.stage_log.length).filter fun x =>
        !(x == backup_stages.BACKUP_FINISHED)) :=
  (stage_monotonicity_amended backup_init o_ok .BACKUP_START
    ⟨st_started, none, false⟩ (of_decide_eq_true rfl) rfl).2.2

/-- Claim C10: under the precondition that the requested stage is one
of the five external stages, the `BACKUP_FINISHED` case of the
stage-dispatch switch (guarded by `DBUG_ASSERT(0)`) is unreachable and
every `stage_names` lookup carried by a raised error is within the five
valid entries; and the precondition is necessary: requesting
`BACKUP_FINISHED` from a non-finished state reaches the asserted case
(second conjunct), and with a failing handler it indexes `stage_names`
out of its valid names — the error carries the out-of-range lookup
`stage_names.get? 5 = none` (third conjunct). -/
theorem stage_finished_case :
    (∀ (st : ServerState) (o : Oracle) (s : backup_stages) (r : RunResult),
       s ≠ .BACKUP_FINISHED → run_backup_stage st o s = some r →
       r.asserted = false ∧ err_names_ok r.err = true)
    ∧ (run_backup_stage st_flush o_ok .BACKUP_FINISHED).map RunResult.asserted = some true
    ∧ (run_backup_stage st_started o_flush_fail .BACKUP_FINISHED).map RunResult.err
        = some (some (.STAGE_FAILED none)) := by
  refine ⟨fun st o s r hs h => ?_, rfl, rfl⟩
  have hm := run_backup_stage_master st o s r hs h
  exact ⟨hm.2.2.2.1, hm.2.2.1⟩

/-- Claim C10 witness: the universally quantified part applied to the
successful START run from the initial state. -/
theorem stage_finished_case_witness :
    (⟨st_started, none, false⟩ : RunResult).asserted = false
    ∧ err_names_ok (⟨st_started, none, false⟩ : RunResult).err = true :=
  stage_finished_case.1 backup_init o_ok .BACKUP_START ⟨st_started, none, false⟩
    (of_decide_eq_true rfl) rfl
